import Mathlib

/-!
Verification development for the entity detection & tracking engine of
`src/extensions/entity_manager.ts` (first file version; the claims' line
numbers refer to it).

Modelling conventions:
* JavaScript numbers are modelled by `ℚ`.  `Number.isFinite` failures
  (NaN, ±Infinity) are modelled by the extra constructors of `JSNum`.
  JS double rounding in `*`/`/`/`+` is abstracted to exact rational
  arithmetic.
* `Vector.distance` is the Euclidean distance; the code only ever
  compares distances with each other (`d < bestD`) and with a constant
  tolerance (`bestD <= tol`).  Because squaring is strictly monotone on
  nonnegative reals, we embed these comparisons as comparisons of
  squared distances (`dist2 _ _ < _`, `dist2 _ _ ≤ tol * tol`), which keeps
  everything inside `ℚ`.
* Object identity (JS references, in-place mutation) is modelled with an
  explicit store: every `new Entity(...)` appends to `EMState.store` and
  the buffers `entities` / `entitiesLastFrame` hold store indices (uids).
  Mutating an entity's `extras` / position updates the store entry, so
  all aliases observe the update exactly as in JS.
* `random_id()` draws a random runtime identifier; it is modelled as a
  fresh supply value, namely the store index of the new entity.
  `performance.now()` is modelled by the `now` field of the state.
* The position/velocity tracker (`Movement`) starts at position `(0,0)`
  and `updatePos` overwrites the position; velocity estimation is
  time-derivative bookkeeping not referenced by any claim and is not
  modelled.
* `scaling.toArenaPos` / `toArenaUnits` and `camera.position` are
  external collaborators; detections and `getPlayer` are modelled at the
  arena-space boundary (positions/radii already converted, the camera
  focus point passed as a parameter).
-/

/-- 2-D vector in arena coordinates (models `core/vector.ts` `Vector`). -/
structure Vec where
  x : ℚ
  y : ℚ
deriving DecidableEq, Repr

/-- Square of `Vector.distance u v = sqrt ((u.x-v.x)^2 + (u.y-v.y)^2)`.
All uses of distances in the embedded code are order comparisons, which
are transported through the strictly monotone squaring map. -/
def dist2 (u v : Vec) : ℚ :=
  (u.x - v.x) * (u.x - v.x) + (u.y - v.y) * (u.y - v.y)

/-- Entity types (models the `EntityType` enum of `types/entity.ts`). -/
inductive EntityType where
  | Player
  | Bullet
  | Drone
  | Trap
  | Square
  | Triangle
  | Pentagon
  | Hexagon
  | AlphaPentagon
  | Crasher
  | UNKNOWN
deriving DecidableEq, Repr

/-- The mutable `extras` metadata bag of an entity.  A new entity starts
with only `id` and `timestamp` set (`{ id: random_id(), timestamp:
performance.now() }`); the other fields are `undefined`, i.e. `none`. -/
structure Extras where
  id : Nat
  timestamp : ℚ
  color : Option String
  radius : Option ℚ
  radiusRaw : Option ℚ
  source : Option String
deriving DecidableEq, Repr

/-- An entity object (models `class Entity extends Movement`).  `parent`
is the store uid of the weakly related parent entity, if any.  `position`
is the `Movement` tracker's position, initially `(0,0)`. -/
structure Entity where
  type : EntityType
  parent : Option Nat
  extras : Extras
  position : Vec
deriving DecidableEq, Repr

/-- One classified detection handed to `#add`: the `type`, the arena
position, and the partial extras (`undefined` fields are `none`). -/
structure Detection where
  type : EntityType
  position : Vec
  color : Option String
  radius : Option ℚ
  radiusRaw : Option ℚ
  source : Option String
deriving DecidableEq, Repr

/-- Default entity used as the (never observed in well-formed states)
fallback of store lookups. -/
def defaultEntity : Entity :=
  { type := EntityType.UNKNOWN
    parent := none
    extras :=
      { id := 0, timestamp := 0, color := none, radius := none,
        radiusRaw := none, source := none }
    position := ⟨0, 0⟩ }

/-- `FINDENTITY_TOLERANCE` (entity_manager.ts:32). -/
def FINDENTITY_TOLERANCE : ℚ := 84

/-- A JavaScript number at the `addAnchor` boundary: finite rationals
plus the non-finite values rejected by `Number.isFinite`. -/
inductive JSNum where
  | fin (q : ℚ)
  | nan
  | posInf
  | negInf
deriving DecidableEq, Repr

/-- `Number.isFinite`. -/
def JSNum.isFinite : JSNum → Bool
  | .fin _ => true
  | _ => false

/-- The JS comparison `observedRaw <= 0` (`NaN <= 0` is false,
`-Infinity <= 0` is true, `Infinity <= 0` is false). -/
def JSNum.leZero : JSNum → Bool
  | .fin q => decide (q ≤ 0)
  | .nan => false
  | .posInf => false
  | .negInf => true

/-- Ascending insertion sort; extensionally the JS
`[...].sort((a, b) => a - b)` on a list of rationals (a sorted
rearrangement of a multiset of rationals is unique as a list). -/
def sortInsert (x : ℚ) : List ℚ → List ℚ
  | [] => [x]
  | y :: ys => if x ≤ y then x :: y :: ys else y :: sortInsert x ys

/-- Ascending sort of a list of rationals. -/
def sortAsc (l : List ℚ) : List ℚ :=
  l.foldr sortInsert []

/-- Median of a list of samples, exactly as computed inline in
`addAnchor`: sort ascending, take the middle element (odd length) or the
mean of the two middle elements (even length). -/
def median (l : List ℚ) : ℚ :=
  let s := sortAsc l
  if s.length % 2 = 1 then s.getD ((s.length - 1) / 2) 0
  else (s.getD (s.length / 2 - 1) 0 + s.getD (s.length / 2) 0) / 2

/-- State of `class RadiusNormalizer` (entity_manager.ts:71-114):
recent scale-factor samples and the current scale factor. -/
structure RadiusNormalizer where
  samples : List ℚ
  factor : ℚ
deriving DecidableEq, Repr

/-- `max` samples kept (entity_manager.ts:74). -/
def RadiusNormalizer.maxSamples : Nat := 15

/-- `apply(raw) { return raw * this.factor; }`. -/
def RadiusNormalizer.apply (st : RadiusNormalizer) (raw : ℚ) : ℚ :=
  raw * st.factor

/-- `addAnchor(observedRaw, expectedCanon)` (entity_manager.ts:87-103):
rejects non-finite or non-positive `observedRaw`, pushes the sample
`expectedCanon / observedRaw`, shifts the oldest sample past `max`, and
blends the median of the samples into the factor with an EMA. -/
def RadiusNormalizer.addAnchor (st : RadiusNormalizer) (observedRaw : JSNum)
    (expectedCanon : ℚ) : RadiusNormalizer :=
  if !observedRaw.isFinite || observedRaw.leZero then st
  else
    match observedRaw with
    | .fin raw =>
        let samples := st.samples ++ [expectedCanon / raw]
        let samples :=
          if samples.length > RadiusNormalizer.maxSamples then samples.drop 1
          else samples
        let s := sortAsc samples
        let m :=
          if s.length % 2 = 1 then s.getD ((s.length - 1) / 2) 0
          else (s.getD (s.length / 2 - 1) 0 + s.getD (s.length / 2) 0) / 2
        { samples := samples, factor := st.factor * 0.8 + m * 0.2 }
    | _ => st

/-- `Math.round`: rounds half toward positive infinity. -/
def jsRound (q : ℚ) : ℤ :=
  Rat.floor (q + 1 / 2)

/-- The three hooked canvas primitives of `#playerHook`. -/
inductive CanvasCall where
  | beginPath
  | arc
  | fill
deriving DecidableEq, Repr

/-- One transition of the `#playerHook` sequence counter
(entity_manager.ts:464-486).  Returns the new counter and whether this
call emitted `onCircle`:
* `beginPath`: `index = (index === 3) ? 4 : 1` (the trailing `index = 0`
  in the source is unreachable);
* `arc`: advances at 1 (recording position/radius) and 4 (recording
  color), emits `onCircle()` and resets to 0 at 6, otherwise no-op;
* `fill`: unconditionally increments. -/
def circleStep (i : Nat) : CanvasCall → Nat × Bool
  | .beginPath => (if i = 3 then 4 else 1, false)
  | .arc =>
      if i = 1 then (2, false)
      else if i = 4 then (5, false)
      else if i = 6 then (0, true)
      else (i, false)
  | .fill => (i + 1, false)

/-- Runs the `#playerHook` counter over a list of primitive calls,
returning the final counter and the number of `onCircle` emissions. -/
def circleRun (i : Nat) : List CanvasCall → Nat × Nat
  | [] => (i, 0)
  | c :: cs =>
      let st := circleStep i c
      let rest := circleRun st.1 cs
      (rest.1, (if st.2 then 1 else 0) + rest.2)

/-- The circle classification of `onCircle` (entity_manager.ts:450-454):
`norm = Math.round(radNorm.apply(raw))`, Player iff `norm > 53`. -/
def circleType (rn : RadiusNormalizer) (raw : ℚ) : EntityType :=
  if jsRound (rn.apply raw) > 53 then EntityType.Player else EntityType.Bullet

/-- The `'circle'` detection source tag attached by the circle hook and
tested by `getPlayer`. -/
def circleSource : String := "circle"

/-- State of `class EntityManager` (entity_manager.ts:130-488) together
with the object store modelling JS heap references.
* `store`: every entity object ever constructed; indices are uids.
* `entities` (`#entities`): uids detected this frame, insertion order.
* `entitiesLastFrame` (`#entitiesLastFrame`): uids of last frame.
* `lastGoodSelf` (`#lastGoodSelf`): cached self uid, if any.
* `now`: the `performance.now()` clock. -/
structure EMState where
  store : List Entity
  entities : List Nat
  entitiesLastFrame : List Nat
  lastGoodSelf : Option Nat
  now : ℚ
deriving DecidableEq, Repr

/-- Dereferences a uid in the store (a JS reference read). -/
def entityAt (s : EMState) (uid : Nat) : Entity :=
  s.store.getD uid defaultEntity

/-- The loop body of `#findEntity` (entity_manager.ts:193-199): running
best candidate and its squared distance; `none` models the initial
`best = undefined, bestD = Infinity`.  The candidate is replaced exactly
on a strict improvement `d < bestD`, so the first entity of the list
attaining the minimum wins. -/
def findBest (s : EMState) (position : Vec) :
    List Nat → Option (Nat × ℚ) → Option (Nat × ℚ)
  | [], acc => acc
  | uid :: rest, acc =>
      let d := dist2 (entityAt s uid).position position
      let acc' : Option (Nat × ℚ) :=
        match acc with
        | none => some (uid, d)
        | some p => if d < p.2 then some (uid, d) else acc
      findBest s position rest acc'

/-- `#findEntity(position, tol)` (entity_manager.ts:189-202): the uid of
the previous-frame entity nearest to `position`, provided its distance
is within `tol` (compared on squares: `bestD <= tol` iff
`bestD^2 <= tol^2`).  Type, color and radius play no role. -/
def findEntity (s : EMState) (position : Vec) (tol : ℚ) : Option Nat :=
  match findBest s position s.entitiesLastFrame none with
  | some p => if p.2 ≤ tol * tol then some p.1 else none
  | none => none

/-- `#findParent(type, position)` (entity_manager.ts:208-212): bullets
search the previous frame within tolerance 300 for a plausible parent;
every other type gets no parent (`undefined`). -/
def findParent (s : EMState) (t : EntityType) (position : Vec) : Option Nat :=
  if t = EntityType.Bullet then findEntity s position 300 else none

/-- The mutation part of `#add` (entity_manager.ts:239-245): overwrite
exactly the extras fields present in the detection, then
`updatePos(position)`.  `type`, `extras.id`, `extras.timestamp` and
`parent` are untouched. -/
def applyDetection (e : Entity) (d : Detection) : Entity :=
  { e with
    extras :=
      { e.extras with
        color := match d.color with | some c => some c | none => e.extras.color
        radius := match d.radius with | some r => some r | none => e.extras.radius
        radiusRaw :=
          match d.radiusRaw with | some r => some r | none => e.extras.radiusRaw
        source :=
          match d.source with | some c => some c | none => e.extras.source }
    position := d.position }

/-- The entity constructed by `#add` when no identity match was found
(entity_manager.ts:231-236): the detection's type, a best-effort parent
search, a fresh identifier (modelled by the store index) and a creation
timestamp; `Movement` starts at position `(0,0)`. -/
def freshEntity (s : EMState) (d : Detection) : Entity :=
  { type := d.type
    parent := findParent s d.type d.position
    extras :=
      { id := s.store.length, timestamp := s.now, color := none,
        radius := none, radiusRaw := none, source := none }
    position := ⟨0, 0⟩ }

/-- `#add(type, position, extras)` (entity_manager.ts:223-248): reuse
the nearest previous-frame entity within `FINDENTITY_TOLERANCE` if one
exists, otherwise construct a fresh entity; mutate the extras fields
present in the detection and the position; push the object onto the
current-frame list. -/
def addDetection (s : EMState) (d : Detection) : EMState :=
  match findEntity s d.position FINDENTITY_TOLERANCE with
  | some uid =>
      { s with
        store := s.store.set uid (applyDetection (entityAt s uid) d)
        entities := s.entities ++ [uid] }
  | none =>
      { s with
        store := s.store ++ [applyDetection (freshEntity s d) d]
        entities := s.entities ++ [s.store.length] }

/-- The `frame_end` handler (entity_manager.ts:154-157): the current
buffer becomes the previous-frame buffer and the current buffer is
cleared. -/
def frameEnd (s : EMState) : EMState :=
  { s with entitiesLastFrame := s.entities, entities := [] }

/-- The exposed `entities` getter (entity_manager.ts:171-173), with uids
dereferenced through the store. -/
def entitiesOf (s : EMState) : List Entity :=
  s.entities.map (entityAt s)

/-- The fallback scan of `getPlayer` (entity_manager.ts:265-278):
over the current-frame list in order, skip entities whose
`extras.source` is not `'circle'` or whose distance to the camera focus
exceeds 128; among the rest keep the first one maximizing
`extras.radius ?? 0` (strict `>` replacement, initial best `-Infinity`
modelled by `none`). -/
def getPlayerScan (s : EMState) (cameraPos : Vec) :
    List Nat → Option (Nat × ℚ) → Option (Nat × ℚ)
  | [], acc => acc
  | uid :: rest, acc =>
      let e := entityAt s uid
      if e.extras.source ≠ some circleSource then getPlayerScan s cameraPos rest acc
      else if 128 * 128 < dist2 e.position cameraPos then
        getPlayerScan s cameraPos rest acc
      else
        let r := e.extras.radius.getD 0
        let acc' : Option (Nat × ℚ) :=
          match acc with
          | none => some (uid, r)
          | some p => if p.2 < r then some (uid, r) else acc
        getPlayerScan s cameraPos rest acc'

/-- The fallback path of `getPlayer()`: run the scan over the
current-frame entities; on success cache the pick (`#lastGoodSelf`),
on failure return `undefined` leaving the state untouched. -/
def getPlayerFallback (s : EMState) (cameraPos : Vec) : Option Nat × EMState :=
  match getPlayerScan s cameraPos s.entities none with
  | some p => (some p.1, { s with lastGoodSelf := some p.1 })
  | none => (none, s)

/-- `getPlayer()` (entity_manager.ts:258-282): if the cached self is
within 160 arena units of the camera focus point, return it immediately;
otherwise run the fallback scan, caching a successful pick.  Returns the
picked uid (if any) and the possibly updated state. -/
def getPlayer (s : EMState) (cameraPos : Vec) : Option Nat × EMState :=
  match s.lastGoodSelf with
  | some uid =>
      if dist2 (entityAt s uid).position cameraPos ≤ 160 * 160 then (some uid, s)
      else getPlayerFallback s cameraPos
  | none => getPlayerFallback s cameraPos

/-- `onCircle` (entity_manager.ts:450-462), modelled at the arena-space
boundary: `pos` is the already-converted arena position and `raw` the
already-converted arena-units radius (`scaling.toArenaPos` and
`scaling.toArenaUnits` are external collaborators).  Classifies by
normalized radius and hands the detection to `#add`. -/
def onCircle (rn : RadiusNormalizer) (s : EMState) (pos : Vec) (raw : ℚ)
    (color : String) : EMState :=
  let norm := jsRound (rn.apply raw)
  addDetection s
    { type := circleType rn raw
      position := pos
      color := some color
      radius := some (norm : ℚ)
      radiusRaw := some raw
      source := some circleSource }

/-- Processes a list of detections in order (`#add` per detection). -/
def addAll (s : EMState) (ds : List Detection) : EMState :=
  ds.foldl addDetection s

/-- "No detection of the frame matches uid": at each successive state of
the frame, `#findEntity` does not select `uid` for the next detection. -/
def noMatchDuring (s : EMState) (ds : List Detection) (uid : Nat) : Prop :=
  match ds with
  | [] => True
  | d :: rest =>
      findEntity s d.position FINDENTITY_TOLERANCE ≠ some uid ∧
      noMatchDuring (addDetection s d) rest uid

/-- One engine operation touching the entity manager state. -/
inductive EMStep : EMState → EMState → Prop where
  | add (s : EMState) (d : Detection) : EMStep s (addDetection s d)
  | frame (s : EMState) : EMStep s (frameEnd s)
  | player (s : EMState) (cameraPos : Vec) : EMStep s (getPlayer s cameraPos).2

/-- Any finite sequence of engine operations. -/
def EMSteps : EMState → EMState → Prop :=
  Relation.ReflTransGen EMStep

/-- The manager's initial state: empty store and buffers, no cached
self. -/
def initEM : EMState :=
  { store := [], entities := [], entitiesLastFrame := [],
    lastGoodSelf := none, now := 0 }

/-! ### List helper lemmas (store reads after in-place updates) -/

theorem set_getD_same {α : Type} (l : List α) (i : Nat) (a d : α)
    (h : i < l.length) : (l.set i a).getD i d = a := by
  induction l generalizing i with
  | nil => simp at h
  | cons x xs ih =>
      cases i with
      | zero => rfl
      | succ n =>
          have hn : n < xs.length := by simpa using h
          simpa using ih n hn

theorem set_getD_other {α : Type} (l : List α) (i j : Nat) (a d : α)
    (h : i ≠ j) : (l.set i a).getD j d = l.getD j d := by
  induction l generalizing i j with
  | nil => rfl
  | cons x xs ih =>
      cases i with
      | zero =>
          cases j with
          | zero => exact absurd rfl h
          | succ m => rfl
      | succ n =>
          cases j with
          | zero => rfl
          | succ m =>
              have h2 : n ≠ m := by omega
              simpa using ih n m h2

theorem set_oob {α : Type} (l : List α) (i : Nat) (a : α)
    (h : l.length ≤ i) : l.set i a = l := by
  induction l generalizing i with
  | nil => rfl
  | cons x xs ih =>
      cases i with
      | zero => simp at h
      | succ n => simpa using ih n (by simpa using h)

theorem getD_append_left {α : Type} (l₁ l₂ : List α) (i : Nat) (d : α)
    (h : i < l₁.length) : (l₁ ++ l₂).getD i d = l₁.getD i d := by
  induction l₁ generalizing i with
  | nil => simp at h
  | cons x xs ih =>
      cases i with
      | zero => rfl
      | succ n =>
          have hn : n < xs.length := by simpa using h
          simpa using ih n hn

theorem getD_append_len {α : Type} (l : List α) (a d : α) :
    (l ++ [a]).getD l.length d = a := by
  induction l with
  | nil => rfl
  | cons x xs ih => simp only [List.cons_append, List.length_cons, List.getD_cons_succ]; exact ih

/-! ### Specification of the nearest-entity search -/

theorem findBest_acc_some (s : EMState) (p : Vec) :
    ∀ (l : List Nat) (q : Nat × ℚ), findBest s p l (some q) ≠ none := by
  intro l
  induction l with
  | nil => intro q h; exact Option.noConfusion h
  | cons uid rest ih =>
      intro q
      have e1 : findBest s p (uid :: rest) (some q) =
          findBest s p rest
            (if dist2 (entityAt s uid).position p < q.2 then
              some (uid, dist2 (entityAt s uid).position p) else some q) := rfl
      rw [e1]
      split
      · exact ih _
      · exact ih _

theorem findBest_none (s : EMState) (p : Vec) (l : List Nat)
    (h : findBest s p l none = none) : l = [] := by
  cases l with
  | nil => rfl
  | cons uid rest =>
      have h' : findBest s p rest
          (some (uid, dist2 (entityAt s uid).position p)) = none := h
      exact absurd h' (findBest_acc_some s p rest _)

theorem findBest_some_spec (s : EMState) (p : Vec) :
    ∀ (l : List Nat) (acc : Option (Nat × ℚ)),
      (∀ a b, acc = some (a, b) → b = dist2 (entityAt s a).position p) →
      ∀ u dd, findBest s p l acc = some (u, dd) →
        dd = dist2 (entityAt s u).position p ∧
        (u ∈ l ∨ acc = some (u, dd)) ∧
        (∀ v ∈ l, dd ≤ dist2 (entityAt s v).position p) ∧
        (∀ a b, acc = some (a, b) → dd ≤ b) := by
  intro l
  induction l with
  | nil =>
      intro acc hacc u dd h
      have hacc_eq : acc = some (u, dd) := h
      refine ⟨hacc u dd hacc_eq, Or.inr hacc_eq, by simp, ?_⟩
      intro a b hab
      rw [hacc_eq] at hab
      cases hab
      exact le_refl _
  | cons uid rest ih =>
      intro acc hacc u dd h
      rcases acc with _ | ⟨a0, b0⟩
      · have h' : findBest s p rest
            (some (uid, dist2 (entityAt s uid).position p)) = some (u, dd) := h
        have hacc' : ∀ a b,
            (some (uid, dist2 (entityAt s uid).position p) : Option (Nat × ℚ)) =
              some (a, b) → b = dist2 (entityAt s a).position p := by
          intro a b hab; cases hab; rfl
        obtain ⟨h1, h2, h3, h4⟩ := ih _ hacc' u dd h'
        have hle : dd ≤ dist2 (entityAt s uid).position p := h4 _ _ rfl
        refine ⟨h1, ?_, ?_, ?_⟩
        · rcases h2 with h2 | h2
          · exact Or.inl (List.mem_cons_of_mem _ h2)
          · cases h2; exact Or.inl (List.mem_cons_self _ _)
        · intro v hv
          rcases List.mem_cons.mp hv with hv | hv
          · subst hv; exact hle
          · exact h3 v hv
        · intro a b hab; exact Option.noConfusion hab
      · have e1 : findBest s p (uid :: rest) (some (a0, b0)) =
            findBest s p rest
              (if dist2 (entityAt s uid).position p < b0 then
                some (uid, dist2 (entityAt s uid).position p)
              else some (a0, b0)) := rfl
        by_cases hd : dist2 (entityAt s uid).position p < b0
        · rw [e1, if_pos hd] at h
          have hacc' : ∀ a b,
              (some (uid, dist2 (entityAt s uid).position p) : Option (Nat × ℚ)) =
                some (a, b) → b = dist2 (entityAt s a).position p := by
            intro a b hab; cases hab; rfl
          obtain ⟨h1, h2, h3, h4⟩ := ih _ hacc' u dd h
          have hle : dd ≤ dist2 (entityAt s uid).position p := h4 _ _ rfl
          refine ⟨h1, ?_, ?_, ?_⟩
          · rcases h2 with h2 | h2
            · exact Or.inl (List.mem_cons_of_mem _ h2)
            · cases h2; exact Or.inl (List.mem_cons_self _ _)
          · intro v hv
            rcases List.mem_cons.mp hv with hv | hv
            · subst hv; exact hle
            · exact h3 v hv
          · intro a b hab
            cases hab
            exact le_of_lt (lt_of_le_of_lt hle hd)
        · rw [e1, if_neg hd] at h
          obtain ⟨h1, h2, h3, h4⟩ := ih _ hacc u dd h
          have hle : dd ≤ b0 := h4 _ _ rfl
          have hb0 : b0 ≤ dist2 (entityAt s uid).position p := le_of_not_lt hd
          refine ⟨h1, ?_, ?_, h4⟩
          · rcases h2 with h2 | h2
            · exact Or.inl (List.mem_cons_of_mem _ h2)
            · exact Or.inr h2
          · intro v hv
            rcases List.mem_cons.mp hv with hv | hv
            · subst hv; exact le_trans hle hb0
            · exact h3 v hv

/-- Soundness of `#findEntity`: a returned uid is a previous-frame
entity, lies within the tolerance, and minimizes the distance to the
query position over the whole previous-frame buffer. -/
theorem findEntity_some (s : EMState) (p : Vec) (tol : ℚ) (uid : Nat)
    (h : findEntity s p tol = some uid) :
    uid ∈ s.entitiesLastFrame ∧
    dist2 (entityAt s uid).position p ≤ tol * tol ∧
    ∀ v ∈ s.entitiesLastFrame,
      dist2 (entityAt s uid).position p ≤ dist2 (entityAt s v).position p := by
  unfold findEntity at h
  split at h
  next pr heq =>
    split at h
    next hle =>
      have huid : pr.1 = uid := Option.some.inj h
      obtain ⟨h1, h2, h3, _⟩ := findBest_some_spec s p s.entitiesLastFrame none
        (by intro a b hab; exact Option.noConfusion hab) pr.1 pr.2 (by rw [heq])
      rcases h2 with h2 | h2
      · subst huid
        refine ⟨h2, ?_, ?_⟩
        · rw [← h1]; exact hle
        · intro v hv; rw [← h1]; exact h3 v hv
      · exact Option.noConfusion h2
    next => exact Option.noConfusion h
  next => exact Option.noConfusion h

/-- Completeness of `#findEntity`: whenever some previous-frame entity
is within the tolerance of the query position, a match is returned. -/
theorem findEntity_isSome_of_close (s : EMState) (p : Vec) (tol : ℚ) (v : Nat)
    (hv : v ∈ s.entitiesLastFrame)
    (hd : dist2 (entityAt s v).position p ≤ tol * tol) :
    ∃ uid, findEntity s p tol = some uid := by
  unfold findEntity
  split
  next pr heq =>
    obtain ⟨h1, _, h3, _⟩ := findBest_some_spec s p s.entitiesLastFrame none
      (by intro a b hab; exact Option.noConfusion hab) pr.1 pr.2 (by rw [heq])
    have hle : pr.2 ≤ tol * tol := le_trans (h3 v hv) hd
    rw [if_pos hle]
    exact ⟨pr.1, rfl⟩
  next heq =>
    have hnil : s.entitiesLastFrame = [] := findBest_none s p _ heq
    rw [hnil] at hv
    exact absurd hv (List.not_mem_nil v)

/-- The matched branch of `#add`: the nearest previous-frame entity is
mutated in place and pushed onto the current-frame list. -/
theorem addDetection_matched (s : EMState) (d : Detection) (uid : Nat)
    (h : findEntity s d.position FINDENTITY_TOLERANCE = some uid) :
    addDetection s d =
      { s with
        store := s.store.set uid (applyDetection (entityAt s uid) d)
        entities := s.entities ++ [uid] } := by
  unfold addDetection
  rw [h]

/-- The unmatched branch of `#add`: a fresh entity object is constructed
and pushed onto the current-frame list. -/
theorem addDetection_unmatched (s : EMState) (d : Detection)
    (h : findEntity s d.position FINDENTITY_TOLERANCE = none) :
    addDetection s d =
      { s with
        store := s.store ++ [applyDetection (freshEntity s d) d]
        entities := s.entities ++ [s.store.length] } := by
  unfold addDetection
  rw [h]

theorem addDetection_store_le (s : EMState) (d : Detection) :
    s.store.length ≤ (addDetection s d).store.length := by
  unfold addDetection
  split
  next uid heq => simp
  next heq => simp

theorem addDetection_lastFrame (s : EMState) (d : Detection) :
    (addDetection s d).entitiesLastFrame = s.entitiesLastFrame := by
  unfold addDetection
  split
  next uid heq => rfl
  next heq => rfl

theorem getPlayerFallback_preserves (s : EMState) (cameraPos : Vec) :
    (getPlayerFallback s cameraPos).2.store = s.store ∧
    (getPlayerFallback s cameraPos).2.entities = s.entities ∧
    (getPlayerFallback s cameraPos).2.entitiesLastFrame = s.entitiesLastFrame := by
  unfold getPlayerFallback
  split
  next pr heq => exact ⟨rfl, rfl, rfl⟩
  next heq => exact ⟨rfl, rfl, rfl⟩

theorem getPlayer_preserves (s : EMState) (cameraPos : Vec) :
    (getPlayer s cameraPos).2.store = s.store ∧
    (getPlayer s cameraPos).2.entities = s.entities ∧
    (getPlayer s cameraPos).2.entitiesLastFrame = s.entitiesLastFrame := by
  unfold getPlayer
  split
  next uid heq =>
    by_cases hd : dist2 (entityAt s uid).position cameraPos ≤ 160 * 160
    · rw [if_pos hd]; exact ⟨rfl, rfl, rfl⟩
    · rw [if_neg hd]; exact getPlayerFallback_preserves s cameraPos
  next heq => exact getPlayerFallback_preserves s cameraPos

theorem applyDetection_keeps (e : Entity) (d : Detection) :
    (applyDetection e d).type = e.type ∧
    (applyDetection e d).extras.id = e.extras.id ∧
    (applyDetection e d).extras.timestamp = e.extras.timestamp ∧
    (applyDetection e d).parent = e.parent ∧
    (applyDetection e d).position = d.position :=
  ⟨rfl, rfl, rfl, rfl, rfl⟩

/-- Per-operation preservation: no engine operation shrinks the store or
changes the `type` of an existing entity object. -/
theorem emStep_type_preserved {s s' : EMState} (h : EMStep s s') (uid : Nat)
    (hlen : uid < s.store.length) :
    uid < s'.store.length ∧ (entityAt s' uid).type = (entityAt s uid).type := by
  cases h with
  | add d =>
      cases heq : findEntity s d.position FINDENTITY_TOLERANCE with
      | some u =>
          rw [addDetection_matched s d u heq]
          refine ⟨by simpa using hlen, ?_⟩
          simp only [entityAt]
          by_cases he : u = uid
          · subst he
            by_cases hu : u < s.store.length
            · rw [set_getD_same s.store u _ defaultEntity hu]
              rfl
            · rw [set_oob s.store u _ (le_of_not_lt hu)]
          · rw [set_getD_other s.store u uid _ defaultEntity he]
      | none =>
          rw [addDetection_unmatched s d heq]
          refine ⟨?_, ?_⟩
          · simp only [List.length_append, List.length_singleton]
            omega
          · simp only [entityAt]
            rw [getD_append_left s.store _ uid defaultEntity hlen]
  | frame => exact ⟨hlen, rfl⟩
  | player cameraPos =>
      obtain ⟨hst, _, _⟩ := getPlayer_preserves s cameraPos
      constructor
      · rw [hst]; exact hlen
      · simp only [entityAt]; rw [hst]

/-- Multi-step preservation over any sequence of engine operations. -/
theorem emSteps_type_preserved {s s' : EMState} (h : EMSteps s s') (uid : Nat)
    (hlen : uid < s.store.length) :
    uid < s'.store.length ∧ (entityAt s' uid).type = (entityAt s uid).type := by
  have h' : Relation.ReflTransGen EMStep s s' := h
  clear h
  induction h' with
  | refl => exact ⟨hlen, rfl⟩
  | tail hsteps hstep ih =>
      obtain ⟨hl, ht⟩ := ih
      obtain ⟨hl2, ht2⟩ := emStep_type_preserved hstep _ hl
      exact ⟨hl2, ht2.trans ht⟩

theorem noMatchDuring_take (uid : Nat) :
    ∀ (ds : List Detection) (s : EMState) (k : Nat),
      noMatchDuring s ds uid → noMatchDuring s (List.take k ds) uid := by
  intro ds
  induction ds with
  | nil =>
      intro s k h
      rw [List.take_nil]
      exact h
  | cons d rest ih =>
      intro s k h
      cases k with
      | zero => exact trivial
      | succ n =>
          rw [List.take_succ_cons]
          exact ⟨h.1, ih _ n h.2⟩

/-- Invariant: an entity absent from the current buffer stays absent as
long as no processed detection matches it (its uid can be neither the
matched uid nor the freshly allocated one). -/
theorem noMatch_not_mem (uid : Nat) :
    ∀ (ds : List Detection) (s : EMState),
      uid < s.store.length → uid ∉ s.entities → noMatchDuring s ds uid →
      uid ∉ (addAll s ds).entities := by
  intro ds
  induction ds with
  | nil => intro s _ h2 _; exact h2
  | cons d rest ih =>
      intro s h1 h2 hnm
      have hhead := hnm.1
      have htail := hnm.2
      have h1' : uid < (addDetection s d).store.length :=
        lt_of_lt_of_le h1 (addDetection_store_le s d)
      have h2' : uid ∉ (addDetection s d).entities := by
        cases heq : findEntity s d.position FINDENTITY_TOLERANCE with
        | some u =>
            rw [addDetection_matched s d u heq]
            intro hmem
            rcases List.mem_append.mp hmem with hm | hm
            · exact h2 hm
            · have huid : uid = u := List.mem_singleton.mp hm
              subst huid
              exact hhead heq
        | none =>
            rw [addDetection_unmatched s d heq]
            intro hmem
            rcases List.mem_append.mp hmem with hm | hm
            · exact h2 hm
            · have huid : uid = s.store.length := List.mem_singleton.mp hm
              omega
      exact ih (addDetection s d) h1' h2' htail

theorem drop_one_append {α : Type} (x : α) (l l₂ : List α) :
    ((x :: l) ++ l₂).drop 1 = (x :: l).drop 1 ++ l₂ := rfl

/-- Unfolding of `addAnchor` on a finite positive measurement: the
inline sort/median computation of the source is the `median` of the
updated sample history. -/
theorem addAnchor_fin (st : RadiusNormalizer) (r c : ℚ) (hr : 0 < r) :
    st.addAnchor (JSNum.fin r) c =
      { samples :=
          if (st.samples ++ [c / r]).length > RadiusNormalizer.maxSamples
          then (st.samples ++ [c / r]).drop 1 else st.samples ++ [c / r]
        factor := st.factor * 0.8 +
          median
            (if (st.samples ++ [c / r]).length > RadiusNormalizer.maxSamples
            then (st.samples ++ [c / r]).drop 1 else st.samples ++ [c / r]) *
            0.2 } := by
  have h2 : (JSNum.fin r).leZero = false := by
    simp [JSNum.leZero, not_le.mpr hr]
  unfold RadiusNormalizer.addAnchor
  rw [h2]
  simp only [JSNum.isFinite, Bool.not_true, Bool.false_or, Bool.false_eq_true,
    if_false]
  rfl

/-! ### Claim theorems -/

/-- **C1** — For every detection processed by `#add`: if some
previous-frame entity lies within `FINDENTITY_TOLERANCE` of the
detection's position, the nearest such entity (first minimizer of the
Euclidean distance over the whole previous-frame buffer, type and color
ignored) is reused — only its extras fields present in the detection and
its position tracker are updated, while its type, identifier, creation
timestamp and parent are untouched; otherwise a brand-new entity is
appended carrying the detection's type, a freshly generated identifier
and a creation timestamp. -/
theorem c1_identity_resolution (s : EMState) (d : Detection) :
    (∀ uid, findEntity s d.position FINDENTITY_TOLERANCE = some uid →
        uid ∈ s.entitiesLastFrame ∧
        dist2 (entityAt s uid).position d.position ≤ FINDENTITY_TOLERANCE * FINDENTITY_TOLERANCE ∧
        (∀ v ∈ s.entitiesLastFrame,
            dist2 (entityAt s uid).position d.position ≤
              dist2 (entityAt s v).position d.position) ∧
        addDetection s d =
          { s with
            store := s.store.set uid (applyDetection (entityAt s uid) d)
            entities := s.entities ++ [uid] } ∧
        (applyDetection (entityAt s uid) d).type = (entityAt s uid).type ∧
        (applyDetection (entityAt s uid) d).extras.id =
          (entityAt s uid).extras.id ∧
        (applyDetection (entityAt s uid) d).extras.timestamp =
          (entityAt s uid).extras.timestamp ∧
        (applyDetection (entityAt s uid) d).parent = (entityAt s uid).parent ∧
        (applyDetection (entityAt s uid) d).position = d.position) ∧
    ((∃ v ∈ s.entitiesLastFrame,
        dist2 (entityAt s v).position d.position ≤ FINDENTITY_TOLERANCE * FINDENTITY_TOLERANCE) →
      ∃ uid, findEntity s d.position FINDENTITY_TOLERANCE = some uid) ∧
    (findEntity s d.position FINDENTITY_TOLERANCE = none →
      addDetection s d =
        { s with
          store := s.store ++ [applyDetection (freshEntity s d) d]
          entities := s.entities ++ [s.store.length] } ∧
      (applyDetection (freshEntity s d) d).type = d.type ∧
      (applyDetection (freshEntity s d) d).extras.id = s.store.length ∧
      (applyDetection (freshEntity s d) d).extras.timestamp = s.now) := by
  refine ⟨?_, ?_, ?_⟩
  · intro uid h
    obtain ⟨h1, h2, h3⟩ := findEntity_some s d.position FINDENTITY_TOLERANCE uid h
    exact ⟨h1, h2, h3, addDetection_matched s d uid h, rfl, rfl, rfl, rfl, rfl⟩
  · rintro ⟨v, hv, hd⟩
    exact findEntity_isSome_of_close s d.position FINDENTITY_TOLERANCE v hv hd
  · intro h
    exact ⟨addDetection_unmatched s d h, rfl, rfl, rfl⟩

/-- `EntityColor.Square` of `types/entity.ts`. -/
def squareColor : String := "#ffe869"

/-- `EntityColor.TeamBlue` of `types/entity.ts`. -/
def teamBlueColor : String := "#00b2e1"

/-- The `'square'` detection source tag. -/
def squareSource : String := "square"

/-- A previous-frame entity used by the concrete witness scenarios: a
`Square` sitting at the origin. -/
def squareAtOrigin : Entity :=
  { type := EntityType.Square
    parent := none
    extras :=
      { id := 0, timestamp := 0, color := some squareColor,
        radius := some 55, radiusRaw := some 55, source := some squareSource }
    position := ⟨0, 0⟩ }

/-- Witness state for C1/C2/C9: one entity from the previous frame, an
empty current frame. -/
def wState : EMState :=
  { store := [squareAtOrigin], entities := [], entitiesLastFrame := [0],
    lastGoodSelf := none, now := 7 }

/-- A detection close to the origin that a later frame would classify as
a `Drone` (team color, drone radius band). -/
def droneDetection : Detection :=
  { type := EntityType.Drone
    position := ⟨10, 0⟩
    color := some teamBlueColor
    radius := some 45
    radiusRaw := some 45
    source := some squareSource }

/-- Witness for C1 at a concrete matched detection: the previous-frame
square is reused (same uid pushed), keeping its type. -/
theorem c1_identity_resolution_witness :
    findEntity wState droneDetection.position FINDENTITY_TOLERANCE = some 0 ∧
    (addDetection wState droneDetection).entities = [0] ∧
    (entityAt (addDetection wState droneDetection) 0).type =
      EntityType.Square := by
  have h : findEntity wState droneDetection.position FINDENTITY_TOLERANCE =
      some 0 := by
    norm_num [findEntity, findBest, entityAt, wState, dist2, defaultEntity,
      squareAtOrigin, droneDetection, FINDENTITY_TOLERANCE]
  obtain ⟨hA, _, _⟩ := c1_identity_resolution wState droneDetection
  obtain ⟨_, _, _, heq, htype, _⟩ := hA 0 h
  refine ⟨h, ?_, ?_⟩
  · rw [heq]
    exact rfl
  · rw [heq]
    have hlen : (0 : Nat) < wState.store.length := by decide
    simp only [entityAt]
    rw [set_getD_same wState.store 0 _ defaultEntity hlen]
    decide

/-- **C2** — Type immutability: across any sequence of engine operations
an existing entity object keeps the type it was created with (no
operation writes `entity.type` after construction); a matching detection
classified with a different type still overwrites the entity's
`extras.color` and `extras.radius` with the detection's values. -/
theorem c2_type_immutable {s s' : EMState} (h : EMSteps s s') :
    (∀ uid, uid < s.store.length →
        uid < s'.store.length ∧
        (entityAt s' uid).type = (entityAt s uid).type) ∧
    (∀ (d : Detection) (uid : Nat), uid < s.store.length →
        findEntity s d.position FINDENTITY_TOLERANCE = some uid →
        (entityAt (addDetection s d) uid).type = (entityAt s uid).type ∧
        (∀ c, d.color = some c →
            (entityAt (addDetection s d) uid).extras.color = some c) ∧
        (∀ r, d.radius = some r →
            (entityAt (addDetection s d) uid).extras.radius = some r)) := by
  constructor
  · intro uid hlen
    exact emSteps_type_preserved h uid hlen
  · intro d uid hlen heq
    rw [addDetection_matched s d uid heq]
    simp only [entityAt]
    rw [set_getD_same s.store uid _ defaultEntity hlen]
    refine ⟨rfl, ?_, ?_⟩
    · intro c hc
      simp only [applyDetection, hc]
    · intro r hr
      simp only [applyDetection, hr]

/-- Witness for C2: one `add` step on a matching detection classified as
`Drone` keeps the square's type `Square` while updating its color and
radius to the drone detection's values. -/
theorem c2_type_immutable_witness :
    (entityAt (addDetection wState droneDetection) 0).type =
      EntityType.Square ∧
    (entityAt (addDetection wState droneDetection) 0).extras.color =
      some teamBlueColor ∧
    (entityAt (addDetection wState droneDetection) 0).extras.radius =
      some 45 := by
  have hsteps : EMSteps wState (addDetection wState droneDetection) :=
    Relation.ReflTransGen.single (EMStep.add wState droneDetection)
  have hfind : findEntity wState droneDetection.position FINDENTITY_TOLERANCE =
      some 0 := by with_unfolding_all decide
  obtain ⟨hpres, hupd⟩ := c2_type_immutable hsteps
  obtain ⟨ht, hc, hr⟩ := hupd droneDetection 0 (by decide) hfind
  refine ⟨?_, hc _ rfl, hr _ rfl⟩
  rw [ht]
  decide

/-- **C3** — Frame rotation: at a frame-end event the previous-frame
buffer becomes the just-accumulated current buffer and the current
buffer becomes empty; an entity of frame N that no detection of frame
N+1 matches is absent from the exposed entities sequence at every point
throughout frame N+1. -/
theorem c3_frame_rotation (s : EMState) (ds : List Detection) (uid : Nat)
    (_hmem : uid ∈ s.entities) (hlen : uid < s.store.length)
    (hnm : noMatchDuring (frameEnd s) ds uid) :
    (frameEnd s).entitiesLastFrame = s.entities ∧
    (frameEnd s).entities = [] ∧
    ∀ k, uid ∉ (addAll (frameEnd s) (List.take k ds)).entities := by
  refine ⟨rfl, rfl, ?_⟩
  intro k
  exact noMatch_not_mem uid (List.take k ds) (frameEnd s) hlen
    (List.not_mem_nil uid) (noMatchDuring_take uid ds (frameEnd s) k hnm)

/-- C3 witness: frame N holds the square; frame N+1 sees only a
detection far outside the tolerance. -/
def c3S : EMState :=
  { store := [squareAtOrigin], entities := [0], entitiesLastFrame := [],
    lastGoodSelf := none, now := 0 }

/-- A detection too far from the origin square to match it. -/
def farDetection : Detection :=
  { type := EntityType.Square
    position := ⟨1000, 1000⟩
    color := some squareColor
    radius := some 55
    radiusRaw := some 55
    source := some squareSource }

/-- Witness for C3 at a concrete frame: the square of frame N is gone
from the exposed list of frame N+1. -/
theorem c3_frame_rotation_witness :
    0 ∈ c3S.entities ∧
    0 ∉ (addAll (frameEnd c3S) (List.take 1 [farDetection])).entities := by
  have hnm : noMatchDuring (frameEnd c3S) [farDetection] 0 := by
    refine ⟨?_, trivial⟩
    with_unfolding_all decide
  exact ⟨by decide,
    (c3_frame_rotation c3S [farDetection] 0 (by decide) (by decide) hnm).2.2 1⟩

/-- **C4** — `addAnchor` on a finite positive measurement: the sample
`expectedCanon / observedRaw` is appended to the history, the oldest
sample is evicted once the history exceeds the fixed capacity 15 (which
lies within the 15–30 band), the new factor is
`0.8 * currentFactor + 0.2 * median(samples)`, and a subsequent
`apply raw` returns `raw` times this new factor. -/
theorem c4_addAnchor (st : RadiusNormalizer) (r c : ℚ) (hr : 0 < r) :
    (RadiusNormalizer.maxSamples = 15 ∧ 15 ≤ RadiusNormalizer.maxSamples ∧
      RadiusNormalizer.maxSamples ≤ 30) ∧
    (st.samples.length < RadiusNormalizer.maxSamples →
      (st.addAnchor (JSNum.fin r) c).samples = st.samples ++ [c / r]) ∧
    (st.samples.length = RadiusNormalizer.maxSamples →
      (st.addAnchor (JSNum.fin r) c).samples =
        st.samples.drop 1 ++ [c / r]) ∧
    (st.addAnchor (JSNum.fin r) c).factor =
      0.8 * st.factor + 0.2 * median (st.addAnchor (JSNum.fin r) c).samples ∧
    (∀ raw, (st.addAnchor (JSNum.fin r) c).apply raw =
      raw * (0.8 * st.factor +
        0.2 * median (st.addAnchor (JSNum.fin r) c).samples)) := by
  have hA := addAnchor_fin st r c hr
  refine ⟨⟨rfl, le_refl _, by norm_num [RadiusNormalizer.maxSamples]⟩,
    ?_, ?_, ?_, ?_⟩
  · intro hlt
    rw [hA]
    have hcond :
        ¬ (st.samples ++ [c / r]).length > RadiusNormalizer.maxSamples := by
      simp only [List.length_append, List.length_singleton,
        RadiusNormalizer.maxSamples] at *
      omega
    rw [if_neg hcond]
  · intro heq
    rw [hA]
    have hcond :
        (st.samples ++ [c / r]).length > RadiusNormalizer.maxSamples := by
      simp only [List.length_append, List.length_singleton,
        RadiusNormalizer.maxSamples] at *
      omega
    rw [if_pos hcond]
    cases hs : st.samples with
    | nil =>
        rw [hs] at heq
        simp [RadiusNormalizer.maxSamples] at heq
    | cons x xs =>
        exact drop_one_append x xs [c / r]
  · rw [hA]
    generalize (if (st.samples ++ [c / r]).length > RadiusNormalizer.maxSamples
        then (st.samples ++ [c / r]).drop 1 else st.samples ++ [c / r]) = S
    show st.factor * 0.8 + median S * 0.2 =
      0.8 * st.factor + 0.2 * median S
    ring
  · intro raw
    rw [hA]
    generalize (if (st.samples ++ [c / r]).length > RadiusNormalizer.maxSamples
        then (st.samples ++ [c / r]).drop 1 else st.samples ++ [c / r]) = S
    show raw * (st.factor * 0.8 + median S * 0.2) =
      raw * (0.8 * st.factor + 0.2 * median S)
    ring

/-- Witness for C4: anchoring `(raw, canonical) = (10, 55)` from the
initial normalizer records the sample `5.5` and moves the factor to
`0.8 * 1 + 0.2 * 5.5 = 1.9`, so `apply 10` returns `19`. -/
theorem c4_addAnchor_witness :
    (RadiusNormalizer.addAnchor ⟨[], 1⟩ (JSNum.fin 10) 55).samples =
      [11 / 2] ∧
    (RadiusNormalizer.addAnchor ⟨[], 1⟩ (JSNum.fin 10) 55).factor = 19 / 10 ∧
    (RadiusNormalizer.addAnchor ⟨[], 1⟩ (JSNum.fin 10) 55).apply 10 = 19 := by
  obtain ⟨_, happ, _, hfac, happly⟩ :=
    c4_addAnchor ⟨[], 1⟩ 10 55 (by norm_num)
  have hs : (RadiusNormalizer.addAnchor ⟨[], 1⟩ (JSNum.fin 10) 55).samples =
      [11 / 2] := by
    rw [happ (by norm_num [RadiusNormalizer.maxSamples])]
    norm_num
  refine ⟨hs, ?_, ?_⟩
  · rw [hfac, hs]
    with_unfolding_all decide
  · rw [happly 10, hs]
    with_unfolding_all decide

/-- The unit normalizer (factor 1, empty history): "unit normalization"
of the C5 scenario. -/
def unitNorm : RadiusNormalizer := ⟨[], 1⟩

/-- State after the two circle detections of the C5 scenario: radius 60
at the origin, then radius 20 at (500, 500), in one frame from the
initial state. -/
def c5S : EMState :=
  onCircle unitNorm (onCircle unitNorm initEM ⟨0, 0⟩ 60 teamBlueColor)
    ⟨500, 500⟩ 20 teamBlueColor

set_option maxRecDepth 4000 in
/-- **C5** — Circle classification: a completed circle detection is
classified `Player` exactly when the rounded normalized radius exceeds
53, and `Bullet` otherwise; under unit normalization the two scenario
detections (radius 60 at (0,0), radius 20 at (500,500)) produce one
`Player` entity at (0,0) and one `Bullet` entity at (500,500). -/
theorem c5_circle_classification :
    (∀ (rn : RadiusNormalizer) (raw : ℚ),
        circleType rn raw = EntityType.Player ↔ 53 < jsRound (rn.apply raw)) ∧
    (∀ (rn : RadiusNormalizer) (raw : ℚ),
        circleType rn raw = EntityType.Bullet ↔ jsRound (rn.apply raw) ≤ 53) ∧
    c5S.entities = [0, 1] ∧
    (entityAt c5S 0).type = EntityType.Player ∧
    (entityAt c5S 0).position = ⟨0, 0⟩ ∧
    (entityAt c5S 1).type = EntityType.Bullet ∧
    (entityAt c5S 1).position = ⟨500, 500⟩ := by
  refine ⟨?_, ?_, ?_, ?_, ?_, ?_, ?_⟩
  · intro rn raw
    unfold circleType
    by_cases h : 53 < jsRound (rn.apply raw)
    · simp [h]
    · simp [h]
  · intro rn raw
    unfold circleType
    by_cases h : 53 < jsRound (rn.apply raw)
    · simp [h]
    · simp [h]
      omega
  all_goals with_unfolding_all decide

/-- **C6** — `getPlayer` cache precedence: whenever the cached self
entity's position is within 160 arena units of the camera focus point,
`getPlayer` returns the cached entity immediately and leaves the state
unchanged — the fallback scan that could re-select a different (possibly
larger) candidate is not performed. -/
theorem c6_cached_self (s : EMState) (cameraPos : Vec) (uid : Nat)
    (hc : s.lastGoodSelf = some uid)
    (hd : dist2 (entityAt s uid).position cameraPos ≤ 160 * 160) :
    getPlayer s cameraPos = (some uid, s) := by
  have h1 : getPlayer s cameraPos =
      if dist2 (entityAt s uid).position cameraPos ≤ 160 * 160 then
        (some uid, s)
      else getPlayerFallback s cameraPos := by
    unfold getPlayer
    rw [hc]
  rw [h1, if_pos hd]

/-- The cached self circle of the C6 witness: radius 50, near the
camera. -/
def selfCircle : Entity :=
  { type := EntityType.Player
    parent := none
    extras :=
      { id := 0, timestamp := 0, color := some teamBlueColor,
        radius := some 50, radiusRaw := some 50,
        source := some circleSource }
    position := ⟨10, 0⟩ }

/-- A larger circle candidate elsewhere in the frame, outside the 160
proximity window of the camera. -/
def bigCircle : Entity :=
  { type := EntityType.Player
    parent := none
    extras :=
      { id := 1, timestamp := 0, color := some teamBlueColor,
        radius := some 100, radiusRaw := some 100,
        source := some circleSource }
    position := ⟨400, 0⟩ }

/-- C6 witness state: the cache holds the small self circle while a
larger circle sits in the current frame outside the proximity window. -/
def c6S : EMState :=
  { store := [selfCircle, bigCircle], entities := [0, 1],
    entitiesLastFrame := [], lastGoodSelf := some 0, now := 0 }

/-- Witness for C6: the cached entity wins although a strictly larger
circle is present in the frame. -/
theorem c6_cached_self_witness :
    getPlayer c6S ⟨0, 0⟩ = (some 0, c6S) ∧
    (entityAt c6S 0).extras.radius = some 50 ∧
    (entityAt c6S 1).extras.radius = some 100 ∧
    160 * 160 < dist2 (entityAt c6S 1).position ⟨0, 0⟩ := by
  refine ⟨c6_cached_self c6S ⟨0, 0⟩ 0 rfl (by with_unfolding_all decide),
    rfl, rfl, by with_unfolding_all decide⟩

/-- **C7 counterexample** — The claimed reset discipline fails on the
code: the expected sequence path-begin, arc, fill, arc, fill, arc emits
no circle at all (final counter 5, zero emissions); a deviating sequence
path-begin, arc, fill, fill, fill, fill, arc does emit a circle; and a
deviating `fill` at counter 3 advances the counter to 4 instead of
resetting it. -/
theorem c7_counterexample :
    circleRun 0 [CanvasCall.beginPath, CanvasCall.arc, CanvasCall.fill,
      CanvasCall.arc, CanvasCall.fill, CanvasCall.arc] = (5, 0) ∧
    circleRun 0 [CanvasCall.beginPath, CanvasCall.arc, CanvasCall.fill,
      CanvasCall.fill, CanvasCall.fill, CanvasCall.fill, CanvasCall.arc] =
      (0, 1) ∧
    circleStep 3 CanvasCall.fill = (4, false) := by
  exact ⟨rfl, rfl, rfl⟩

/-- **C7 amended** — In the circle detector's call-order state machine,
`onCircle` is emitted exactly at an `arc` call arriving when the counter
equals 6; the counter is driven by: path-begin sets it to 4 when it is 3
and to 1 otherwise, fill always increments it, and arc advances it only
at 1 and 4.  In particular the nominal sequence path-begin, arc, fill,
path-begin, arc, fill, arc emits exactly one circle and resets the
counter to 0. -/
theorem c7_amended :
    (∀ (i : Nat) (c : CanvasCall),
        (circleStep i c).2 = true ↔ c = CanvasCall.arc ∧ i = 6) ∧
    (∀ i, circleStep i CanvasCall.beginPath =
        (if i = 3 then 4 else 1, false)) ∧
    (∀ i, circleStep i CanvasCall.fill = (i + 1, false)) ∧
    circleRun 0 [CanvasCall.beginPath, CanvasCall.arc, CanvasCall.fill,
      CanvasCall.beginPath, CanvasCall.arc, CanvasCall.fill,
      CanvasCall.arc] = (0, 1) := by
  refine ⟨?_, fun i => rfl, fun i => rfl, rfl⟩
  intro i c
  cases c with
  | beginPath => simp [circleStep]
  | arc =>
      by_cases h1 : i = 1
      · subst h1; simp [circleStep]
      · by_cases h4 : i = 4
        · subst h4; simp [circleStep]
        · by_cases h6 : i = 6
          · subst h6; simp [circleStep]
          · simp [circleStep, h1, h4, h6]
  | fill => simp [circleStep]

/-- **C8** — Pathological anchors are ignored: `addAnchor` with a
non-finite or non-positive measured radius leaves the normalizer state
entirely unchanged (no sample recorded, factor kept), so `apply` returns
the same results as before; the call is total — no error is raised. -/
theorem c8_bad_anchor_ignored (st : RadiusNormalizer) (c : ℚ) (x : JSNum)
    (h : x.isFinite = false ∨ ∃ r, x = JSNum.fin r ∧ r ≤ 0) :
    st.addAnchor x c = st ∧
    (∀ raw, (st.addAnchor x c).apply raw = st.apply raw) := by
  have hmain : st.addAnchor x c = st := by
    rcases h with h | ⟨r, rfl, hr⟩
    · cases x with
      | fin q => simp [JSNum.isFinite] at h
      | nan => rfl
      | posInf => rfl
      | negInf => rfl
    · unfold RadiusNormalizer.addAnchor
      have hz : (JSNum.fin r).leZero = true := by
        simp [JSNum.leZero, hr]
      rw [hz]
      simp
  exact ⟨hmain, fun raw => by rw [hmain]⟩

/-- Witness for C8: `NaN`, a negative radius and `+Infinity` all leave a
nontrivial normalizer state untouched. -/
theorem c8_bad_anchor_ignored_witness :
    RadiusNormalizer.addAnchor ⟨[3], 2⟩ JSNum.nan 55 = ⟨[3], 2⟩ ∧
    RadiusNormalizer.addAnchor ⟨[3], 2⟩ (JSNum.fin (-7)) 55 = ⟨[3], 2⟩ ∧
    RadiusNormalizer.addAnchor ⟨[3], 2⟩ JSNum.posInf 55 = ⟨[3], 2⟩ := by
  exact ⟨(c8_bad_anchor_ignored ⟨[3], 2⟩ 55 JSNum.nan (Or.inl rfl)).1,
    (c8_bad_anchor_ignored ⟨[3], 2⟩ 55 (JSNum.fin (-7))
      (Or.inr ⟨-7, rfl, by norm_num⟩)).1,
    (c8_bad_anchor_ignored ⟨[3], 2⟩ 55 JSNum.posInf (Or.inl rfl)).1⟩

/-- First detection of the C9 scenario, 10 units east of the square. -/
def c9D1 : Detection :=
  { type := EntityType.Square
    position := ⟨10, 0⟩
    color := some squareColor
    radius := some 55
    radiusRaw := some 55
    source := some squareSource }

/-- Second detection of the C9 scenario, 10 units south of the square
(and well within tolerance of the square's updated position). -/
def c9D2 : Detection :=
  { type := EntityType.Square
    position := ⟨0, 10⟩
    color := some squareColor
    radius := some 55
    radiusRaw := some 55
    source := some squareSource }

set_option maxRecDepth 4000 in
/-- **C9** — Nearest-neighbor matching never claims a previous-frame
entity: two detections of the same frame both match the single
previous-frame square, so the very same entity object (uid 0, identifier
0) is pushed twice and the exposed entities sequence holds it twice,
while no new entity is created. -/
theorem c9_double_reuse :
    findEntity wState c9D1.position FINDENTITY_TOLERANCE = some 0 ∧
    findEntity (addDetection wState c9D1) c9D2.position
      FINDENTITY_TOLERANCE = some 0 ∧
    (addDetection (addDetection wState c9D1) c9D2).entities = [0, 0] ∧
    (addDetection (addDetection wState c9D1) c9D2).store.length = 1 ∧
    (entitiesOf (addDetection (addDetection wState c9D1) c9D2)).map
      (fun e => e.extras.id) = [0, 0] := by
  with_unfolding_all decide

/-- Frame 1 of the C10 execution: a single circle detection at the
origin creates entity 0 (a `Player`). -/
def c10A : EMState := onCircle unitNorm initEM ⟨0, 0⟩ 60 teamBlueColor

/-- `getPlayer` is called once, caching entity 0 as the self. -/
def c10B : EMState := (getPlayer c10A ⟨0, 0⟩).2

/-- Two frame boundaries pass with no further detections, so entity 0
leaves both buffers. -/
def c10C : EMState := frameEnd (frameEnd c10B)

set_option maxRecDepth 4000 in
/-- **C10** — The self cache survives frame rotation: after entity 0
drops out of both buffers, `getPlayer` still returns it (its last
position is within 160 units of the camera focus) and leaves the state
unchanged, although 0 is not an element of the current entities
sequence. -/
theorem c10_stale_cache :
    (getPlayer c10A ⟨0, 0⟩).1 = some 0 ∧
    c10C.lastGoodSelf = some 0 ∧
    c10C.entities = [] ∧
    c10C.entitiesLastFrame = [] ∧
    dist2 (entityAt c10C 0).position ⟨0, 0⟩ ≤ 160 * 160 ∧
    getPlayer c10C ⟨0, 0⟩ = (some 0, c10C) ∧
    0 ∉ c10C.entities := by
  with_unfolding_all decide
